import Mathlib

/-
Verification of the agora statistics engine and Monte-Carlo portfolio
selection (src/agora/instrument.py and src/agora/main.py).

Modelling conventions:
- Python float values are embedded exactly: finite values are rationals,
  and the IEEE special values produced by the code (inf, -inf, NaN) are
  explicit constructors of `FVal`.  Arithmetic on `FVal` follows the IEEE
  rules for the operations the code performs (no rounding is modelled;
  all claims are about the exact arithmetic the formulas denote).
- Python exceptions are modelled with `Except PyErr`.  The repository
  defines no custom exception classes; the exceptions that can actually
  be raised on the analysed paths are ValueError (the date checks in
  get_ticker_historical_data, and numpy argmax/argmin on an empty
  sequence), ZeroDivisionError (the expression 252 / len(returns) in the
  APY line of calculate_return_statistics when the return series is
  empty) and KeyError (indexing the initial empty dict
  self.return_statistics with [0] in calculate_risk_statistics).
- The APR and APY fields of return_statistics are not represented: APR
  needs calendar resampling of dated rows and APY real exponentiation,
  and no claim consumes their values.  Their only effect on the claims
  is the ZeroDivisionError raised while evaluating APY when
  len(returns) = 0, which is modelled by the error branch of
  calculate_return_statistics_data.
- Data acquisition (pandas_datareader) and the Portfolio class live
  outside the analysed sources; they are abstracted as parameters
  (a fetch function producing the Adj Close column, and a per-trial
  outcome function for the simulation loop).
-/

namespace Agora

/-- Python exceptions raised on the analysed code paths.  ValueError
carries a numeric code standing for the message: 1 and 2 are ERR#0001 /
ERR#0002 (start / end date not parseable as dd/mm/yyyy), 3 is ERR#0003
(start not strictly before end), 4 and 5 are the numpy messages
"attempt to get argmax (argmin) of an empty sequence". -/
inductive PyErr where
  | valueError (code : ℕ)
  | zeroDivisionError
  | keyError
deriving DecidableEq

/-- An IEEE double as produced by the statistics code: a finite value
(kept exact as a rational), one of the two infinities, or NaN. -/
inductive FVal where
  | fin (q : ℚ)
  | inf
  | ninf
  | nan
deriving DecidableEq

/-- True exactly on the NaN value (what pandas dropna removes). -/
def FVal.isNaN : FVal → Bool
  | .nan => true
  | _ => false

/-- IEEE addition on the embedded values. -/
def FVal.add : FVal → FVal → FVal
  | .nan, _ => .nan
  | _, .nan => .nan
  | .inf, .ninf => .nan
  | .ninf, .inf => .nan
  | .inf, _ => .inf
  | _, .inf => .inf
  | .ninf, _ => .ninf
  | _, .ninf => .ninf
  | .fin a, .fin b => .fin (a + b)

/-- Sum of a list of values, as the float sum of a pandas column. -/
def FVal.sum (xs : List FVal) : FVal := xs.foldr FVal.add (FVal.fin 0)

/-- Division by a natural number (the length of a series). -/
def FVal.divNat : FVal → ℕ → FVal
  | _, 0 => .nan
  | .fin q, n => .fin (q / n)
  | .inf, _ => .inf
  | .ninf, _ => .ninf
  | .nan, _ => .nan

/-- Multiplication by a natural constant (252, or the series length). -/
def FVal.mulNat : FVal → ℕ → FVal
  | .fin q, n => .fin (q * n)
  | .nan, _ => .nan
  | .inf, 0 => .nan
  | .inf, _ => .inf
  | .ninf, 0 => .nan
  | .ninf, _ => .ninf

/-- Mean of a column as pandas computes it: NaN on an empty column,
otherwise the sum divided by the length. -/
def FVal.mean (xs : List FVal) : FVal :=
  if xs.length = 0 then .nan else (FVal.sum xs).divNat xs.length

/-- Interpretation of an embedded float as a real number; the non-finite
values are mapped to a junk value 0 and are only ever interpreted under
finiteness hypotheses. -/
noncomputable def FVal.toReal : FVal → ℝ
  | .fin q => (q : ℝ)
  | _ => 0

/-- A logarithmic return entry.  The finite case `val prev cur` (both
prices positive) denotes ln(cur) - ln(prev); keeping the price pair keeps
the definition executable while determining the real value exactly. -/
inductive LogRet where
  | val (prev cur : ℚ)
  | inf
  | ninf
  | nan
deriving DecidableEq

/-- True exactly on the NaN log-return entry. -/
def LogRet.isNaN : LogRet → Bool
  | .nan => true
  | _ => false

/-- The consecutive (previous price, current price) pairs of a price
series; pct_change and the shifted log difference are elementwise maps
over these transitions (their leading automatic NaN row corresponds to
no transition and is always removed by dropna). -/
def transitions : List ℚ → List (ℚ × ℚ)
  | a :: b :: rest => (a, b) :: transitions (b :: rest)
  | _ => []

/-- One entry of pct_change: (cur - prev) / prev, with the IEEE outcome
of the division when prev = 0 (inf, -inf or NaN by the sign of cur). -/
def simpleReturnF (prev cur : ℚ) : FVal :=
  if prev ≠ 0 then .fin ((cur - prev) / prev)
  else if 0 < cur then .inf
  else if cur < 0 then .ninf
  else .nan

/-- One entry of the log-return column np.log(x) - np.log(x.shift(1)):
np.log is NaN on negatives and -inf at zero, and the subtraction
propagates NaN and yields NaN on (-inf) - (-inf). -/
def logReturnL (prev cur : ℚ) : LogRet :=
  if 0 < prev ∧ 0 < cur then .val prev cur
  else if prev < 0 ∨ cur < 0 then .nan
  else if prev = 0 ∧ cur = 0 then .nan
  else if cur = 0 then .ninf
  else .inf

/-- The simple-return series: closing_prices.pct_change().dropna().
dropna removes exactly the NaN entries (infinities are kept). -/
def simple_returns (prices : List ℚ) : List FVal :=
  ((transitions prices).map fun t => simpleReturnF t.1 t.2).filter
    fun x => ! x.isNaN

/-- The log-return series:
closing_prices.apply(lambda x: np.log(x) - np.log(x.shift(1))).dropna(). -/
def log_returns (prices : List ℚ) : List LogRet :=
  ((transitions prices).map fun t => logReturnL t.1 t.2).filter
    fun x => ! x.isNaN

/-- Spec-side comparator for the return claims: the closed-form simple
returns (P_t - P_prev) / P_prev of the spec, one per transition, as
rationals. -/
def simpleReturnsQ (prices : List ℚ) : List ℚ :=
  (transitions prices).map fun t => (t.2 - t.1) / t.1

/-- The list self.return_statistics built by calculate_return_statistics
(indices 0..4 of the Python list; APR and APY are not represented, see
the header comment). -/
structure ReturnStats where
  returns : List FVal
  log_returns : List LogRet
  expected_daily_return : FVal
  expected_total_return : FVal
  expected_annual_return : FVal
deriving DecidableEq

/-- The body of Instrument.calculate_return_statistics as a function of
the Adj Close column: the return series, their statistics, and the
ZeroDivisionError raised by the APY expression 252 / len(returns) when
the return series is empty (the only exception this method can raise;
it occurs before self.return_statistics is assigned). -/
def calculate_return_statistics_data (prices : List ℚ) :
    Except PyErr ReturnStats :=
  let returns := simple_returns prices
  if returns.length = 0 then .error .zeroDivisionError
  else
    let edr := FVal.mean returns
    .ok { returns := returns
          log_returns := log_returns prices
          expected_daily_return := edr
          expected_total_return := edr.mulNat returns.length
          expected_annual_return := edr.mulNat 252 }

/-- A standard-deviation value as the risk code produces it: either NaN,
or the square root of a nonnegative rational (`sq v` denotes √v).  Every
standard deviation in calculate_risk_statistics is of this shape because
multiplying √v by np.sqrt(c) gives √(v·c) exactly. -/
inductive SqrtVal where
  | sq (v : ℚ)
  | nan
deriving DecidableEq

/-- Multiply a standard deviation by np.sqrt(c) for a nonnegative
rational c: √v · √c = √(v·c). -/
def SqrtVal.scaleSqrt : SqrtVal → ℚ → SqrtVal
  | .nan, _ => .nan
  | .sq v, c => .sq (v * c)

/-- Square a standard deviation (the ** 2 in the variance lines):
(√v)² = v for the nonnegative v produced here. -/
def SqrtVal.square : SqrtVal → FVal
  | .nan => .nan
  | .sq v => .fin v

/-- Real value of a standard deviation; NaN is mapped to the junk value
0 and only interpreted under hypotheses that exclude it. -/
noncomputable def SqrtVal.toReal : SqrtVal → ℝ
  | .sq v => Real.sqrt v
  | .nan => 0

/-- True exactly on finite embedded floats. -/
def FVal.isFinite : FVal → Bool
  | .fin _ => true
  | _ => false

/-- The finite values of a column of embedded floats. -/
def finVals (xs : List FVal) : List ℚ :=
  xs.filterMap fun x => match x with | .fin q => some q | _ => none

/-- The sample variance with N-1 denominator (the square of the pandas
std with its default ddof = 1); meaningful for lists of length at least
two, which is the only place it is consulted. -/
def sampleVarQ (qs : List ℚ) : ℚ :=
  ((qs.map fun x => (x - qs.sum / qs.length) ^ 2).sum) / ((qs.length : ℚ) - 1)

/-- pandas Series.std() (ddof = 1, skipna = True) on a column of
embedded floats: NaN entries are skipped, fewer than two remaining
observations give NaN, any remaining infinity poisons the mean and the
deviations into NaN, and otherwise the result is the square root of the
sample variance. -/
def pandas_std (xs : List FVal) : SqrtVal :=
  let ys := xs.filter fun x => ! x.isNaN
  if ys.length < 2 then .nan
  else if ! ys.all FVal.isFinite then .nan
  else .sq (sampleVarQ (finVals ys))

/-- The dict built by calculate_risk_statistics. -/
structure RiskStats where
  daily_std : SqrtVal
  total_std : SqrtVal
  annual_std : SqrtVal
  daily_var : FVal
  total_var : FVal
  annual_var : FVal
deriving DecidableEq

/-- The body of calculate_risk_statistics as a function of the stored
return series: daily_std = returns.std(), total_std = daily_std ·
np.sqrt(len(returns)), annual_std = daily_std · np.sqrt(252), and each
variance is the square of the matching standard deviation. -/
def riskFromReturns (returns : List FVal) : RiskStats :=
  let ds := pandas_std returns
  { daily_std := ds
    total_std := ds.scaleSqrt returns.length
    annual_std := ds.scaleSqrt 252
    daily_var := ds.square
    total_var := (ds.scaleSqrt returns.length).square
    annual_var := (ds.scaleSqrt 252).square }

/-- A calendar date as datetime.strptime builds it. -/
structure Date where
  year : ℕ
  month : ℕ
  day : ℕ
deriving DecidableEq

/-- The date_range dict {start, end} passed to Instrument. -/
structure DateRange where
  dstart : Date
  dend : Date
deriving DecidableEq

/-- Chronological strict order on dates (datetime comparison; both
parsed dates carry time 00:00, so date fields decide the order). -/
def Date.lt (a b : Date) : Bool :=
  (decide (a.year < b.year)) ||
    ((decide (a.year = b.year)) &&
      ((decide (a.month < b.month)) ||
        ((decide (a.month = b.month)) && (decide (a.day < b.day)))))

/-- Numeric value of a decimal digit character, if it is one. -/
def digitVal (c : Char) : Option ℕ :=
  if c.isDigit then some (c.toNat - 48) else none

/-- A one-or-two digit strptime field (%d and %m consume two digits when
two are available, else one); range checks happen afterwards, matching
the observable accept/reject behaviour of the strptime regex. -/
def parse2 : List Char → Option (ℕ × List Char)
  | [] => none
  | [c] => (digitVal c).map fun d => (d, [])
  | c1 :: c2 :: rest =>
    match digitVal c1 with
    | none => none
    | some d1 =>
      match digitVal c2 with
      | none => some (d1, c2 :: rest)
      | some d2 => some (10 * d1 + d2, rest)

/-- The strptime %Y field: exactly four digits. -/
def parse4 (cs : List Char) : Option (ℕ × List Char) :=
  match cs with
  | c1 :: c2 :: c3 :: c4 :: rest =>
    match digitVal c1, digitVal c2, digitVal c3, digitVal c4 with
    | some a, some b, some c, some d =>
      some (1000 * a + 100 * b + 10 * c + d, rest)
    | _, _, _, _ => none
  | _ => none

/-- Gregorian leap-year rule used by datetime. -/
def isLeapYear (y : ℕ) : Bool :=
  (decide (y % 4 = 0)) &&
    ((decide (y % 100 ≠ 0)) || (decide (y % 400 = 0)))

/-- Days in a month, as datetime validates the day field. -/
def daysInMonth (y m : ℕ) : ℕ :=
  if m = 2 then (if isLeapYear y then 29 else 28)
  else if m = 4 ∨ m = 6 ∨ m = 9 ∨ m = 11 then 30
  else 31

/-- The validity checks datetime performs on the parsed fields
(MINYEAR = 1; four digits bound the year by 9999 already). -/
def validDMY (d m y : ℕ) : Bool :=
  (decide (1 ≤ y)) && (decide (1 ≤ m)) && (decide (m ≤ 12)) &&
    (decide (1 ≤ d)) && (decide (d ≤ daysInMonth y m))

/-- datetime.strptime(s, %d/%m/%Y) as a partial function: day and month
fields of one or two digits separated by slashes, a four-digit year, no
leftover characters, and a calendar-valid date; None is the ValueError
branch. -/
def parseDMY (s : String) : Option Date :=
  match parse2 s.data with
  | none => none
  | some (d, r0) =>
    match r0 with
    | '/' :: r1 =>
      match parse2 r1 with
      | none => none
      | some (m, r2) =>
        match r2 with
        | '/' :: r3 =>
          match parse4 r3 with
          | some (y, []) =>
            if validDMY d m y then some ⟨y, m, d⟩ else none
          | _ => none
        | _ => none
    | _ => none

/-- The Instrument object.  The data field is the Adj Close column of
the downloaded frame; return_statistics and risk_statistics start as the
empty dict {} (modelled by none) and are replaced by the computed
statistics when the calculate methods run. -/
structure Instrument where
  date_range : DateRange
  data : List ℚ
  return_statistics : Option ReturnStats
  risk_statistics : Option RiskStats
deriving DecidableEq

/-- Instrument.__init__ with an explicit date range: stores the range,
downloads the data (supplied here already fetched), and initializes both
statistics fields to the empty dict. -/
def Instrument.init (dr : DateRange) (data : List ℚ) : Instrument :=
  { date_range := dr, data := data
    return_statistics := none, risk_statistics := none }

/-- Instrument.calculate_return_statistics: computes the statistics from
the stored data, assigns self.return_statistics on success, and lets the
ZeroDivisionError of the APY line escape before any assignment. -/
def Instrument.calculate_return_statistics (inst : Instrument) :
    Except PyErr (ReturnStats × Instrument) :=
  match calculate_return_statistics_data inst.data with
  | .error e => .error e
  | .ok st => .ok (st, { inst with return_statistics := some st })

/-- Instrument.calculate_risk_statistics: reads
self.return_statistics[0]; on the initial empty dict this raises
KeyError(0), otherwise it computes the risk dict from the stored return
series and assigns self.risk_statistics. -/
def Instrument.calculate_risk_statistics (inst : Instrument) :
    Except PyErr (RiskStats × Instrument) :=
  match inst.return_statistics with
  | none => .error .keyError
  | some st =>
    let rk := riskFromReturns st.returns
    .ok (rk, { inst with risk_statistics := some rk })

/-- Instrument.calculate_statistics: return statistics first, then risk
statistics, propagating any exception. -/
def Instrument.calculate_statistics (inst : Instrument) :
    Except PyErr ((ReturnStats × RiskStats) × Instrument) :=
  match inst.calculate_return_statistics with
  | .error e => .error e
  | .ok (st, inst1) =>
    match inst1.calculate_risk_statistics with
    | .error e => .error e
    | .ok (rk, inst2) => .ok ((st, rk), inst2)

/-- get_ticker_historical_data (main.py): strptime both date strings in
dd/mm/yyyy format (ValueError ERR#0001 / ERR#0002 on failure), require
start strictly before end (ValueError ERR#0003 otherwise), and only then
construct the Instrument, which performs the download; the fetch
collaborator is abstracted as a function from the validated range to the
Adj Close column. -/
def get_ticker_historical_data (fetch : DateRange → List ℚ)
    (startStr endStr : String) : Except PyErr Instrument :=
  match parseDMY startStr with
  | none => .error (.valueError 1)
  | some ds =>
    match parseDMY endStr with
    | none => .error (.valueError 2)
    | some de =>
      if Date.lt ds de then
        .ok (Instrument.init ⟨ds, de⟩ (fetch ⟨ds, de⟩))
      else .error (.valueError 3)

/-- get_ticker_statistics (main.py): retrieve the instrument, then run
calculate_statistics on it, returning the updated instrument. -/
def get_ticker_statistics (fetch : DateRange → List ℚ)
    (startStr endStr : String) : Except PyErr Instrument :=
  match get_ticker_historical_data fetch startStr endStr with
  | .error e => .error e
  | .ok inst =>
    match inst.calculate_statistics with
    | .error e => .error e
    | .ok (_, inst2) => .ok inst2

/-- One Monte-Carlo trial record as portfolio_optimization accumulates
it: the weight vector and the three statistics appended to all_weights,
ret_arr, std_arr and sharpe_arr.  The Portfolio class producing these
numbers lives outside the analysed sources, so trial outcomes are
abstracted; the fields are the embedded (finite) float values. -/
structure PortfolioTrial where
  weights : List ℚ
  annual_return : ℚ
  annual_std : ℚ
  sharpe : ℚ
deriving DecidableEq

/-- The maximum of a nonempty list scanned left to right. -/
def listMax (a : ℚ) (xs : List ℚ) : ℚ := xs.foldl max a

/-- The minimum of a nonempty list scanned left to right. -/
def listMin (a : ℚ) (xs : List ℚ) : ℚ := xs.foldl min a

/-- np.argmax on a Python list: ValueError on an empty sequence,
otherwise the index of the first occurrence of the maximum. -/
def np_argmax (xs : List ℚ) : Except PyErr ℕ :=
  match xs with
  | [] => .error (.valueError 4)
  | a :: rest => .ok ((a :: rest).indexOf (listMax a rest))

/-- np.argmin on a Python list: ValueError on an empty sequence,
otherwise the index of the first occurrence of the minimum. -/
def np_argmin (xs : List ℚ) : Except PyErr ℕ :=
  match xs with
  | [] => .error (.valueError 5)
  | a :: rest => .ok ((a :: rest).indexOf (listMin a rest))

/-- The two selected indices of step 4 of portfolio_optimization. -/
structure Selected where
  opt_idx : ℕ
  min_idx : ℕ
deriving DecidableEq

/-- Step 4 of portfolio_optimization: opt_idx = np.argmax(sharpe_arr)
runs first (so on an empty trial list its ValueError is the failure),
then min_idx = np.argmin(std_arr). -/
def selection_phase (trials : List PortfolioTrial) :
    Except PyErr Selected :=
  match np_argmax (trials.map fun t => t.sharpe) with
  | .error e => .error e
  | .ok oidx =>
    match np_argmin (trials.map fun t => t.annual_std) with
    | .error e => .error e
    | .ok midx => .ok ⟨oidx, midx⟩

/-- Step 3 of portfolio_optimization: the loop for i in
range(num_portfolios) appends one trial record per iteration; the i-th
outcome (produced by the external Portfolio class) is abstracted as a
function of i. -/
def run_simulation (P : ℕ) (trial : ℕ → PortfolioTrial) :
    List PortfolioTrial :=
  (List.range P).map trial

/-- Steps 3 and 4 of portfolio_optimization: accumulate the
num_portfolios trial records, then select the max-Sharpe and min-std
indices.  There is no validity check on num_portfolios anywhere before
the loop. -/
def portfolio_optimization_core (P : ℕ) (trial : ℕ → PortfolioTrial) :
    Except PyErr Selected :=
  selection_phase (run_simulation P trial)

/-! Helper lemmas. -/

theorem le_listMax {xs : List ℚ} : ∀ {a y : ℚ}, y = a ∨ y ∈ xs → y ≤ listMax a xs := by
  induction xs with
  | nil =>
    intro a y h
    rcases h with h | h
    · exact le_of_eq h
    · cases h
  | cons x xs ih =>
    intro a y h
    have hstep : listMax a (x :: xs) = listMax (max a x) xs := rfl
    rw [hstep]
    rcases h with h | h
    · exact le_trans (h ▸ le_max_left a x) (ih (Or.inl rfl))
    · rcases List.mem_cons.mp h with h | h
      · exact le_trans (h ▸ le_max_right a x) (ih (Or.inl rfl))
      · exact ih (Or.inr h)

theorem listMax_choice (xs : List ℚ) : ∀ a : ℚ, listMax a xs = a ∨ listMax a xs ∈ xs := by
  induction xs with
  | nil => intro a; exact Or.inl rfl
  | cons x xs ih =>
    intro a
    have hstep : listMax a (x :: xs) = listMax (max a x) xs := rfl
    rw [hstep]
    rcases ih (max a x) with h | h
    · rcases max_choice a x with hm | hm
      · exact Or.inl (h.trans hm)
      · exact Or.inr (List.mem_cons.mpr (Or.inl (h.trans hm)))
    · exact Or.inr (List.mem_cons.mpr (Or.inr h))

theorem listMin_le {xs : List ℚ} : ∀ {a y : ℚ}, y = a ∨ y ∈ xs → listMin a xs ≤ y := by
  induction xs with
  | nil =>
    intro a y h
    rcases h with h | h
    · exact le_of_eq h.symm
    · cases h
  | cons x xs ih =>
    intro a y h
    have hstep : listMin a (x :: xs) = listMin (min a x) xs := rfl
    rw [hstep]
    rcases h with h | h
    · exact le_trans (ih (Or.inl rfl)) (h ▸ min_le_left a x)
    · rcases List.mem_cons.mp h with h | h
      · exact le_trans (ih (Or.inl rfl)) (h ▸ min_le_right a x)
      · exact ih (Or.inr h)

theorem listMin_choice (xs : List ℚ) : ∀ a : ℚ, listMin a xs = a ∨ listMin a xs ∈ xs := by
  induction xs with
  | nil => intro a; exact Or.inl rfl
  | cons x xs ih =>
    intro a
    have hstep : listMin a (x :: xs) = listMin (min a x) xs := rfl
    rw [hstep]
    rcases ih (min a x) with h | h
    · rcases min_choice a x with hm | hm
      · exact Or.inl (h.trans hm)
      · exact Or.inr (List.mem_cons.mpr (Or.inl (h.trans hm)))
    · exact Or.inr (List.mem_cons.mpr (Or.inr h))

theorem getElem?_ne_of_lt_indexOf {xs : List ℚ} {a : ℚ} :
    ∀ {j : ℕ}, j < xs.indexOf a → xs[j]? ≠ some a := by
  induction xs with
  | nil => intro j h; simp [List.indexOf] at h
  | cons b xs ih =>
    intro j h
    by_cases hba : b = a
    · rw [List.indexOf_cons_eq xs hba] at h
      cases h
    · rw [List.indexOf_cons_ne xs hba] at h
      cases j with
      | zero =>
        simp only [List.getElem?_cons_zero]
        intro hc
        exact hba (Option.some.inj hc)
      | succ j =>
        simp only [List.getElem?_cons_succ]
        exact ih (Nat.lt_of_succ_lt_succ h)

theorem transitions_length (l : List ℚ) : (transitions l).length = l.length - 1 := by
  induction l with
  | nil => rfl
  | cons a l ih =>
    cases l with
    | nil => rfl
    | cons b rest =>
      show ((a, b) :: transitions (b :: rest)).length = (b :: rest).length
      simp only [List.length_cons, ih]
      simp

theorem transitions_getElem? {l : List ℚ} :
    ∀ {i : ℕ} {a b : ℚ}, l[i]? = some a → l[i + 1]? = some b →
      (transitions l)[i]? = some (a, b) := by
  induction l with
  | nil => intro i a b ha _; simp at ha
  | cons x l ih =>
    intro i a b ha hb
    cases l with
    | nil =>
      cases i with
      | zero => simp at hb
      | succ i => simp at hb
    | cons y rest =>
      cases i with
      | zero =>
        simp only [List.getElem?_cons_zero] at ha
        simp only [List.getElem?_cons_succ, List.getElem?_cons_zero] at hb
        show ((x, y) :: transitions (y :: rest))[0]? = some (a, b)
        simp [Option.some.inj ha, Option.some.inj hb]
      | succ i =>
        rw [List.getElem?_cons_succ] at ha hb
        show ((x, y) :: transitions (y :: rest))[i + 1]? = some (a, b)
        rw [List.getElem?_cons_succ]
        exact ih ha hb

theorem FVal_sum_map_fin (qs : List ℚ) :
    FVal.sum (qs.map FVal.fin) = FVal.fin qs.sum := by
  induction qs with
  | nil => rfl
  | cons q qs ih =>
    show FVal.add (FVal.fin q) (FVal.sum (qs.map FVal.fin)) = FVal.fin (q :: qs).sum
    rw [ih, List.sum_cons]
    rfl

theorem FVal_mean_map_fin {qs : List ℚ} (h : qs ≠ []) :
    FVal.mean (qs.map FVal.fin) = .fin (qs.sum / qs.length) := by
  obtain ⟨k, hk⟩ := Nat.exists_eq_succ_of_ne_zero
    (fun hlen => h (List.length_eq_zero.mp hlen))
  unfold FVal.mean
  rw [List.length_map, FVal_sum_map_fin, hk]
  rw [if_neg (by omega : ¬ k + 1 = 0)]
  rfl

theorem simpleReturnF_isNaN (prev cur : ℚ) :
    (simpleReturnF prev cur).isNaN = decide (prev = 0 ∧ cur = 0) := by
  unfold simpleReturnF
  by_cases h1 : prev = 0
  · simp only [h1, ne_eq, not_true_eq_false, if_false, true_and]
    by_cases h2 : (0 : ℚ) < cur
    · simp [h2, ne_of_gt h2, FVal.isNaN]
    · by_cases h3 : cur < 0
      · simp [h2, h3, ne_of_lt h3, FVal.isNaN]
      · have : cur = 0 := le_antisymm (not_lt.mp h2) (not_lt.mp h3)
        simp [h2, h3, this, FVal.isNaN]
  · simp [h1, FVal.isNaN]

theorem logReturnL_isNaN (prev cur : ℚ) :
    (logReturnL prev cur).isNaN =
      decide (cur < 0 ∨ prev < 0 ∨ (prev = 0 ∧ cur = 0)) := by
  unfold logReturnL
  by_cases hp : 0 < prev
  · by_cases hc : 0 < cur
    · simp [hp, hc, LogRet.isNaN, asymm hp, asymm hc, ne_of_gt hp]
    · have hc0 : cur ≤ 0 := not_lt.mp hc
      by_cases hcneg : cur < 0
      · simp [hp, hc, hcneg, LogRet.isNaN]
      · have : cur = 0 := le_antisymm hc0 (not_lt.mp hcneg)
        simp [hp, hc, hcneg, this, LogRet.isNaN, asymm hp, ne_of_gt hp]
  · have hp0 : prev ≤ 0 := not_lt.mp hp
    by_cases hpneg : prev < 0
    · simp [hp, hpneg, LogRet.isNaN]
    · have hpz : prev = 0 := le_antisymm hp0 (not_lt.mp hpneg)
      by_cases hcneg : cur < 0
      · simp [hp, hpneg, hcneg, LogRet.isNaN]
      · by_cases hcz : cur = 0
        · simp [hp, hpneg, hcneg, hpz, hcz, LogRet.isNaN]
        · simp [hp, hpneg, hcneg, hpz, hcz, LogRet.isNaN]

theorem simpleReturnF_fin {prev : ℚ} (cur : ℚ) (h : prev ≠ 0) :
    simpleReturnF prev cur = .fin ((cur - prev) / prev) := by
  simp [simpleReturnF, h]

theorem simple_returns_eq_map {prices : List ℚ}
    (hz : ∀ t ∈ transitions prices, t.1 ≠ 0) :
    simple_returns prices = (simpleReturnsQ prices).map FVal.fin := by
  unfold simple_returns simpleReturnsQ
  rw [List.map_map]
  have hmap : (transitions prices).map (fun t => simpleReturnF t.1 t.2) =
      (transitions prices).map (FVal.fin ∘ fun t => (t.2 - t.1) / t.1) := by
    apply List.map_congr_left
    intro t ht
    exact simpleReturnF_fin t.2 (hz t ht)
  rw [hmap]
  apply List.filter_eq_self.mpr
  intro x hx
  rcases List.mem_map.mp hx with ⟨t, _, ht⟩
  rw [← ht]
  rfl

theorem np_argmax_ok (a : ℚ) (rest : List ℚ) :
    ∃ i m, np_argmax (a :: rest) = .ok i ∧ (a :: rest)[i]? = some m ∧
      (∀ (j : ℕ) (y : ℚ), (a :: rest)[j]? = some y → y ≤ m) ∧
      (∀ j, j < i → ∀ y : ℚ, (a :: rest)[j]? = some y → y < m) := by
  refine ⟨(a :: rest).indexOf (listMax a rest), listMax a rest, rfl, ?_, ?_, ?_⟩
  · have hmem : listMax a rest ∈ a :: rest := by
      rcases listMax_choice rest a with h | h
      · rw [h]; exact List.mem_cons_self a rest
      · exact List.mem_cons.mpr (Or.inr h)
    exact List.getElem?_indexOf hmem
  · intro j y hj
    have : y ∈ a :: rest := List.getElem?_mem hj
    exact le_listMax (List.mem_cons.mp this)
  · intro j hji y hj
    have hle : y ≤ listMax a rest := le_listMax (List.mem_cons.mp (List.getElem?_mem hj))
    have hne : y ≠ listMax a rest := by
      intro he
      exact getElem?_ne_of_lt_indexOf hji (he ▸ hj)
    exact lt_of_le_of_ne hle hne

theorem np_argmin_ok (a : ℚ) (rest : List ℚ) :
    ∃ i m, np_argmin (a :: rest) = .ok i ∧ (a :: rest)[i]? = some m ∧
      (∀ (j : ℕ) (y : ℚ), (a :: rest)[j]? = some y → m ≤ y) ∧
      (∀ j, j < i → ∀ y : ℚ, (a :: rest)[j]? = some y → m < y) := by
  refine ⟨(a :: rest).indexOf (listMin a rest), listMin a rest, rfl, ?_, ?_, ?_⟩
  · have hmem : listMin a rest ∈ a :: rest := by
      rcases listMin_choice rest a with h | h
      · rw [h]; exact List.mem_cons_self a rest
      · exact List.mem_cons.mpr (Or.inr h)
    exact List.getElem?_indexOf hmem
  · intro j y hj
    have : y ∈ a :: rest := List.getElem?_mem hj
    exact listMin_le (List.mem_cons.mp this)
  · intro j hji y hj
    have hle : listMin a rest ≤ y := listMin_le (List.mem_cons.mp (List.getElem?_mem hj))
    have hne : y ≠ listMin a rest := by
      intro he
      exact getElem?_ne_of_lt_indexOf hji (he ▸ hj)
    exact lt_of_le_of_ne hle (Ne.symm hne)

theorem filter_notNaN_map_fin (qs : List ℚ) :
    (qs.map FVal.fin).filter (fun x => ! x.isNaN) = qs.map FVal.fin := by
  apply List.filter_eq_self.mpr
  intro x hx
  rcases List.mem_map.mp hx with ⟨q, _, hq⟩
  rw [← hq]
  rfl

theorem all_isFinite_map_fin (qs : List ℚ) :
    (qs.map FVal.fin).all FVal.isFinite = true := by
  apply List.all_eq_true.mpr
  intro x hx
  rcases List.mem_map.mp hx with ⟨q, _, hq⟩
  rw [← hq]
  rfl

theorem finVals_map_fin (qs : List ℚ) : finVals (qs.map FVal.fin) = qs := by
  induction qs with
  | nil => rfl
  | cons q qs ih =>
    show q :: finVals (qs.map FVal.fin) = q :: qs
    rw [ih]

theorem sampleVarQ_nonneg {qs : List ℚ} (h2 : 2 ≤ qs.length) :
    0 ≤ sampleVarQ qs := by
  unfold sampleVarQ
  apply div_nonneg
  · apply List.sum_nonneg
    intro x hx
    rcases List.mem_map.mp hx with ⟨q, _, hq⟩
    rw [← hq]
    exact sq_nonneg _
  · have : (2 : ℚ) ≤ (qs.length : ℚ) := by exact_mod_cast h2
    linarith

theorem pandas_std_map_fin {qs : List ℚ} (h2 : 2 ≤ qs.length) :
    pandas_std (qs.map FVal.fin) = .sq (sampleVarQ qs) := by
  unfold pandas_std
  simp only [filter_notNaN_map_fin, all_isFinite_map_fin, finVals_map_fin,
    List.length_map, Bool.not_true, if_neg (by omega : ¬ qs.length < 2)]
  simp

/-! Claim theorems. -/

/-- C2: for every price series (of sufficient length and with no
degenerate zero-price transition), calculate_return_statistics produces
expected_daily_return equal to the arithmetic mean of the simple daily
returns and expected_annual_return equal to that mean times the constant
252. -/
theorem return_mean_annualization (prices : List ℚ) (h2 : 2 ≤ prices.length)
    (hz : ∀ t ∈ transitions prices, t.1 ≠ 0) :
    ∃ st, calculate_return_statistics_data prices = .ok st ∧
      st.returns = (simpleReturnsQ prices).map FVal.fin ∧
      st.expected_daily_return =
        .fin ((simpleReturnsQ prices).sum / ((simpleReturnsQ prices).length : ℚ)) ∧
      st.expected_annual_return =
        .fin ((simpleReturnsQ prices).sum / ((simpleReturnsQ prices).length : ℚ) * 252) := by
  have hmap := simple_returns_eq_map hz
  have hlen : (simpleReturnsQ prices).length = prices.length - 1 := by
    unfold simpleReturnsQ
    rw [List.length_map, transitions_length]
  have hne : simpleReturnsQ prices ≠ [] := by
    intro h0
    rw [h0] at hlen
    simp only [List.length_nil] at hlen
    omega
  have hmean := FVal_mean_map_fin hne
  have hnz : ¬ (simple_returns prices).length = 0 := by
    rw [hmap, List.length_map, hlen]
    omega
  simp only [calculate_return_statistics_data, if_neg hnz]
  refine ⟨_, rfl, hmap, ?_, ?_⟩
  · show FVal.mean (simple_returns prices) = _
    rw [hmap, hmean]
  · show (FVal.mean (simple_returns prices)).mulNat 252 = _
    rw [hmap, hmean]
    show FVal.fin (_ * ((252 : ℕ) : ℚ)) = _
    norm_num

/-- Witness for C2 at the concrete price series 1, 2, 4. -/
theorem return_mean_annualization_witness :
    (2 ≤ ([1, 2, 4] : List ℚ).length ∧
      ∀ t ∈ transitions [1, 2, 4], t.1 ≠ 0) ∧
    ∃ st, calculate_return_statistics_data [1, 2, 4] = .ok st ∧
      st.returns = (simpleReturnsQ [1, 2, 4]).map FVal.fin ∧
      st.expected_daily_return =
        .fin ((simpleReturnsQ [1, 2, 4]).sum / ((simpleReturnsQ [1, 2, 4]).length : ℚ)) ∧
      st.expected_annual_return =
        .fin ((simpleReturnsQ [1, 2, 4]).sum / ((simpleReturnsQ [1, 2, 4]).length : ℚ) * 252) :=
  ⟨⟨by decide, by decide⟩,
    return_mean_annualization [1, 2, 4] (by decide) (by decide)⟩

/-- C3: for every (finite) return series of length at least two, the
risk computation yields daily_std equal to the sample standard deviation
with the N-1 denominator, annual_std equal to daily_std times the square
root of 252, and each reported variance (daily, total, annual) equal to
the square of the corresponding standard deviation. -/
theorem risk_std_variance_relations (xs : List FVal) (qs : List ℚ)
    (hx : xs = qs.map FVal.fin) (h2 : 2 ≤ qs.length) :
    (riskFromReturns xs).daily_std.toReal =
      Real.sqrt ((((qs.map fun x => (x - qs.sum / qs.length) ^ 2).sum) /
        ((qs.length : ℚ) - 1) : ℚ)) ∧
    (riskFromReturns xs).annual_std.toReal =
      (riskFromReturns xs).daily_std.toReal * Real.sqrt 252 ∧
    (riskFromReturns xs).daily_var.toReal =
      (riskFromReturns xs).daily_std.toReal ^ 2 ∧
    (riskFromReturns xs).total_var.toReal =
      (riskFromReturns xs).total_std.toReal ^ 2 ∧
    (riskFromReturns xs).annual_var.toReal =
      (riskFromReturns xs).annual_std.toReal ^ 2 := by
  subst hx
  have hstd := pandas_std_map_fin h2
  have hv : 0 ≤ sampleVarQ qs := sampleVarQ_nonneg h2
  have hvr : (0 : ℝ) ≤ ((sampleVarQ qs : ℚ) : ℝ) := by exact_mod_cast hv
  have hds : (riskFromReturns (qs.map FVal.fin)).daily_std = .sq (sampleVarQ qs) := by
    show pandas_std (qs.map FVal.fin) = _
    exact hstd
  have hts : (riskFromReturns (qs.map FVal.fin)).total_std =
      .sq (sampleVarQ qs * ((qs.map FVal.fin).length : ℚ)) := by
    show (pandas_std (qs.map FVal.fin)).scaleSqrt _ = _
    rw [hstd]
    rfl
  have has : (riskFromReturns (qs.map FVal.fin)).annual_std =
      .sq (sampleVarQ qs * 252) := by
    show (pandas_std (qs.map FVal.fin)).scaleSqrt 252 = _
    rw [hstd]
    rfl
  have hdv : (riskFromReturns (qs.map FVal.fin)).daily_var =
      .fin (sampleVarQ qs) := by
    show (pandas_std (qs.map FVal.fin)).square = _
    rw [hstd]
    rfl
  have htv : (riskFromReturns (qs.map FVal.fin)).total_var =
      .fin (sampleVarQ qs * ((qs.map FVal.fin).length : ℚ)) := by
    show ((pandas_std (qs.map FVal.fin)).scaleSqrt _).square = _
    rw [hstd]
    rfl
  have hav : (riskFromReturns (qs.map FVal.fin)).annual_var =
      .fin (sampleVarQ qs * 252) := by
    show ((pandas_std (qs.map FVal.fin)).scaleSqrt 252).square = _
    rw [hstd]
    rfl
  have key : ∀ w : ℚ, 0 ≤ w →
      (FVal.fin w).toReal = (SqrtVal.sq w).toReal ^ 2 := by
    intro w hw
    show (w : ℝ) = Real.sqrt (w : ℝ) ^ 2
    rw [Real.sq_sqrt (by exact_mod_cast hw)]
  have hlenq : (0 : ℚ) ≤ ((qs.map FVal.fin).length : ℚ) := by positivity
  refine ⟨?_, ?_, ?_, ?_, ?_⟩
  · rw [hds]
    rfl
  · rw [has, hds]
    show Real.sqrt ((sampleVarQ qs * 252 : ℚ) : ℝ) =
      Real.sqrt ((sampleVarQ qs : ℚ) : ℝ) * Real.sqrt 252
    rw [Rat.cast_mul, Real.sqrt_mul hvr]
    norm_num
  · rw [hdv, hds]
    exact key _ hv
  · rw [htv, hts]
    exact key _ (mul_nonneg hv hlenq)
  · rw [hav, has]
    exact key _ (mul_nonneg hv (by norm_num))

/-- Witness for C3 at the concrete return series 1, 2, 4. -/
theorem risk_std_variance_relations_witness :
    ([FVal.fin 1, FVal.fin 2, FVal.fin 4] =
        ([1, 2, 4] : List ℚ).map FVal.fin ∧ 2 ≤ ([1, 2, 4] : List ℚ).length) ∧
    ((riskFromReturns [FVal.fin 1, FVal.fin 2, FVal.fin 4]).daily_std.toReal =
      Real.sqrt (((([1, 2, 4] : List ℚ).map
          fun x => (x - ([1, 2, 4] : List ℚ).sum / ([1, 2, 4] : List ℚ).length) ^ 2).sum /
        ((([1, 2, 4] : List ℚ).length : ℚ) - 1) : ℚ)) ∧
    (riskFromReturns [FVal.fin 1, FVal.fin 2, FVal.fin 4]).annual_std.toReal =
      (riskFromReturns [FVal.fin 1, FVal.fin 2, FVal.fin 4]).daily_std.toReal *
        Real.sqrt 252 ∧
    (riskFromReturns [FVal.fin 1, FVal.fin 2, FVal.fin 4]).daily_var.toReal =
      (riskFromReturns [FVal.fin 1, FVal.fin 2, FVal.fin 4]).daily_std.toReal ^ 2 ∧
    (riskFromReturns [FVal.fin 1, FVal.fin 2, FVal.fin 4]).total_var.toReal =
      (riskFromReturns [FVal.fin 1, FVal.fin 2, FVal.fin 4]).total_std.toReal ^ 2 ∧
    (riskFromReturns [FVal.fin 1, FVal.fin 2, FVal.fin 4]).annual_var.toReal =
      (riskFromReturns [FVal.fin 1, FVal.fin 2, FVal.fin 4]).annual_std.toReal ^ 2) :=
  ⟨⟨by decide, by decide⟩,
    risk_std_variance_relations [FVal.fin 1, FVal.fin 2, FVal.fin 4]
      [1, 2, 4] (by decide) (by decide)⟩

/-- C4: for every price series of length at least two with no undefined
transition (no zero prior price), the simple-return series has length
len(prices) - 1 and its entry at index i is
(prices[i + 1] - prices[i]) / prices[i]. -/
theorem simple_returns_length_entries (prices : List ℚ)
    (h2 : 2 ≤ prices.length) (hz : ∀ t ∈ transitions prices, t.1 ≠ 0) :
    (simple_returns prices).length = prices.length - 1 ∧
    ∀ (i : ℕ) (a b : ℚ), prices[i]? = some a → prices[i + 1]? = some b →
      (simple_returns prices)[i]? = some (.fin ((b - a) / a)) := by
  have hmap := simple_returns_eq_map hz
  constructor
  · rw [hmap, List.length_map]
    unfold simpleReturnsQ
    rw [List.length_map, transitions_length]
  · intro i a b ha hb
    have ht := transitions_getElem? ha hb
    rw [hmap]
    unfold simpleReturnsQ
    rw [List.getElem?_map, List.getElem?_map, ht]
    rfl

/-- Witness for C4 at the concrete price series 1, 2, 4. -/
theorem simple_returns_length_entries_witness :
    (2 ≤ ([1, 2, 4] : List ℚ).length ∧
      ∀ t ∈ transitions [1, 2, 4], t.1 ≠ 0) ∧
    ((simple_returns [1, 2, 4]).length = ([1, 2, 4] : List ℚ).length - 1 ∧
    ∀ (i : ℕ) (a b : ℚ), ([1, 2, 4] : List ℚ)[i]? = some a →
      ([1, 2, 4] : List ℚ)[i + 1]? = some b →
      (simple_returns [1, 2, 4])[i]? = some (.fin ((b - a) / a))) :=
  ⟨⟨by decide, by decide⟩,
    simple_returns_length_entries [1, 2, 4] (by decide) (by decide)⟩

/-- C5 counterexample: the claim says every simple return whose prior
price is zero is absent from the simple-return series, and every log
return with a non-positive price is absent from the log-return series.
On the price series 0, 1 the code keeps both entries as infinities
(pandas dropna removes NaN but not inf), so neither series is empty. -/
theorem zero_prior_price_return_kept :
    simple_returns [0, 1] = [FVal.inf] ∧ log_returns [0, 1] = [LogRet.inf] := by
  decide

/-- C5 amended: dropna removes exactly the NaN entries.  A simple-return
transition is dropped iff both the prior and the current price are zero
(0/0 = NaN); a zero prior price with a nonzero current price yields a
kept infinity.  A log-return transition is dropped iff a price is
negative or both prices are zero; a single zero price yields a kept
infinity. -/
theorem dropna_drops_exactly_nan (prices : List ℚ) :
    simple_returns prices =
      ((transitions prices).filter fun t => ¬ (t.1 = 0 ∧ t.2 = 0)).map
        (fun t => simpleReturnF t.1 t.2) ∧
    log_returns prices =
      ((transitions prices).filter fun t =>
          ¬ (t.2 < 0 ∨ t.1 < 0 ∨ (t.1 = 0 ∧ t.2 = 0))).map
        (fun t => logReturnL t.1 t.2) := by
  constructor
  · unfold simple_returns
    rw [List.filter_map]
    congr 1
    apply List.filter_congr
    intro t _
    show (! (simpleReturnF t.1 t.2).isNaN) = _
    rw [simpleReturnF_isNaN]
    simp [decide_not]
  · unfold log_returns
    rw [List.filter_map]
    congr 1
    apply List.filter_congr
    intro t _
    show (! (logReturnL t.1 t.2).isNaN) = _
    rw [logReturnL_isNaN]
    simp only [decide_not, Bool.not_or]

theorem selection_core_spec (P : ℕ) (trial : ℕ → PortfolioTrial)
    (hP : 0 < P) :
    ∃ sel tmax tmin, portfolio_optimization_core P trial = .ok sel ∧
      (run_simulation P trial)[sel.opt_idx]? = some tmax ∧
      (run_simulation P trial)[sel.min_idx]? = some tmin ∧
      (∀ (j : ℕ) (u : PortfolioTrial), (run_simulation P trial)[j]? = some u →
        u.sharpe ≤ tmax.sharpe ∧ tmin.annual_std ≤ u.annual_std) ∧
      (∀ j, j < sel.opt_idx → ∀ u : PortfolioTrial,
        (run_simulation P trial)[j]? = some u → u.sharpe < tmax.sharpe) ∧
      (∀ j, j < sel.min_idx → ∀ u : PortfolioTrial,
        (run_simulation P trial)[j]? = some u →
        tmin.annual_std < u.annual_std) := by
  have hlen : (run_simulation P trial).length = P := by
    unfold run_simulation
    rw [List.length_map, List.length_range]
  obtain ⟨t0, ts, hcons⟩ : ∃ t0 ts, run_simulation P trial = t0 :: ts := by
    cases hq : run_simulation P trial with
    | nil => rw [hq] at hlen; simp at hlen; omega
    | cons a l => exact ⟨a, l, rfl⟩
  have hml : (run_simulation P trial).map (fun t => t.sharpe) =
      t0.sharpe :: ts.map (fun t => t.sharpe) := by
    rw [hcons]
    rfl
  have hml2 : (run_simulation P trial).map (fun t => t.annual_std) =
      t0.annual_std :: ts.map (fun t => t.annual_std) := by
    rw [hcons]
    rfl
  obtain ⟨i, m, hok, hm, hub, hfirst⟩ :=
    np_argmax_ok t0.sharpe (ts.map fun t => t.sharpe)
  obtain ⟨i2, m2, hok2, hm2, hlb, hfirst2⟩ :=
    np_argmin_ok t0.annual_std (ts.map fun t => t.annual_std)
  have hsel : portfolio_optimization_core P trial = .ok ⟨i, i2⟩ := by
    unfold portfolio_optimization_core selection_phase
    rw [hml, hml2, hok, hok2]
  rw [← hml] at hm hub hfirst
  rw [← hml2] at hm2 hlb hfirst2
  rw [List.getElem?_map] at hm hm2
  cases htmax : (run_simulation P trial)[i]? with
  | none =>
    rw [htmax] at hm
    cases hm
  | some tm =>
    rw [htmax] at hm
    cases htmin : (run_simulation P trial)[i2]? with
    | none =>
      rw [htmin] at hm2
      cases hm2
    | some tn =>
      rw [htmin] at hm2
      have hmv : tm.sharpe = m := by
        exact Option.some.inj hm
      have hmv2 : tn.annual_std = m2 := by
        exact Option.some.inj hm2
      have hjmap : ∀ (j : ℕ) (u : PortfolioTrial) (f : PortfolioTrial → ℚ),
          (run_simulation P trial)[j]? = some u →
          ((run_simulation P trial).map f)[j]? = some (f u) := by
        intro j u f hju
        rw [List.getElem?_map, hju]
        rfl
      refine ⟨⟨i, i2⟩, tm, tn, hsel, htmax, htmin, ?_, ?_, ?_⟩
      · intro j u hju
        constructor
        · rw [hmv]
          exact hub j (u.sharpe) (hjmap j u _ hju)
        · rw [hmv2]
          exact hlb j (u.annual_std) (hjmap j u _ hju)
      · intro j hji u hju
        rw [hmv]
        exact hfirst j hji (u.sharpe) (hjmap j u _ hju)
      · intro j hji u hju
        rw [hmv2]
        exact hfirst2 j hji (u.annual_std) (hjmap j u _ hju)

/-- C1: after all P trials complete (P at least one), the selection
phase picks as max-Sharpe trial a trial whose sharpe ratio is at least
every trial's sharpe ratio and as min-std trial one whose annual_std is
at most every trial's annual_std, and in both cases every strictly
earlier trial is strictly worse (np.argmax and np.argmin return the
first occurrence of the extremum, the deterministic tie-break). -/
theorem monte_carlo_selection_extremal (P : ℕ) (trial : ℕ → PortfolioTrial)
    (hP : 0 < P) :
    ∃ sel tmax tmin, portfolio_optimization_core P trial = .ok sel ∧
      (run_simulation P trial)[sel.opt_idx]? = some tmax ∧
      (run_simulation P trial)[sel.min_idx]? = some tmin ∧
      (∀ (j : ℕ) (u : PortfolioTrial), (run_simulation P trial)[j]? = some u →
        u.sharpe ≤ tmax.sharpe ∧ tmin.annual_std ≤ u.annual_std) ∧
      (∀ j, j < sel.opt_idx → ∀ u : PortfolioTrial,
        (run_simulation P trial)[j]? = some u → u.sharpe < tmax.sharpe) ∧
      (∀ j, j < sel.min_idx → ∀ u : PortfolioTrial,
        (run_simulation P trial)[j]? = some u →
        tmin.annual_std < u.annual_std) :=
  selection_core_spec P trial hP

/-- Witness for C1 on a concrete two-trial run: trial 0 has the lower
sharpe ratio and the higher annual_std, trial 1 the converse. -/
theorem monte_carlo_selection_extremal_witness :
    0 < 2 ∧
    ∃ sel tmax tmin,
      portfolio_optimization_core 2
        (fun i => if i = 0 then ⟨[], 0, 2, 1⟩ else ⟨[], 0, 1, 3⟩) = .ok sel ∧
      (run_simulation 2
        (fun i => if i = 0 then ⟨[], 0, 2, 1⟩ else ⟨[], 0, 1, 3⟩))[sel.opt_idx]? =
          some tmax ∧
      (run_simulation 2
        (fun i => if i = 0 then ⟨[], 0, 2, 1⟩ else ⟨[], 0, 1, 3⟩))[sel.min_idx]? =
          some tmin ∧
      (∀ (j : ℕ) (u : PortfolioTrial),
        (run_simulation 2
          (fun i => if i = 0 then ⟨[], 0, 2, 1⟩ else ⟨[], 0, 1, 3⟩))[j]? = some u →
        u.sharpe ≤ tmax.sharpe ∧ tmin.annual_std ≤ u.annual_std) ∧
      (∀ j, j < sel.opt_idx → ∀ u : PortfolioTrial,
        (run_simulation 2
          (fun i => if i = 0 then ⟨[], 0, 2, 1⟩ else ⟨[], 0, 1, 3⟩))[j]? = some u →
        u.sharpe < tmax.sharpe) ∧
      (∀ j, j < sel.min_idx → ∀ u : PortfolioTrial,
        (run_simulation 2
          (fun i => if i = 0 then ⟨[], 0, 2, 1⟩ else ⟨[], 0, 1, 3⟩))[j]? = some u →
        tmin.annual_std < u.annual_std) :=
  ⟨by decide, monte_carlo_selection_extremal 2
    (fun i => if i = 0 then ⟨[], 0, 2, 1⟩ else ⟨[], 0, 1, 3⟩) (by decide)⟩

/-- C8 counterexample: the claim says a run with P = 0 fails with
InvalidConfigurationError before any sampling trial, rather than
attempting selection over an empty trial set.  The code has no such
check (InvalidConfigurationError does not exist in the repository): the
loop body runs zero times and the run reaches the selection step, where
np.argmax raises ValueError on the empty sharpe array (error code 4,
"attempt to get argmax of an empty sequence"). -/
theorem zero_trials_argmax_valueerror :
    portfolio_optimization_core 0 (fun _ => ⟨[], 0, 0, 0⟩) =
      .error (.valueError 4) := rfl

/-- C8 amended: with P = 0 there is no pre-validation failure; the
simulation loop simply produces no trials and the failure happens at the
selection phase, where np.argmax on the empty sharpe array raises
ValueError — and that is the only P for which the run fails this way. -/
theorem zero_trials_fail_at_selection (P : ℕ) (trial : ℕ → PortfolioTrial) :
    (portfolio_optimization_core P trial = .error (.valueError 4) ↔ P = 0) ∧
    run_simulation 0 trial = [] := by
  refine ⟨⟨?_, ?_⟩, rfl⟩
  · intro h
    by_contra hP
    obtain ⟨sel, tmax, tmin, hok, _⟩ :=
      selection_core_spec P trial (Nat.pos_of_ne_zero hP)
    rw [hok] at h
    cases h
  · intro h
    subst h
    rfl

/-- C6 counterexample: the claim says the risk computation fails with
InsufficientDataError when fewer than two return observations are
present.  No such class exists in the repository and the code raises
nothing there: on an instrument whose stored return series has a single
observation, calculate_risk_statistics returns normally with every
statistic NaN (pandas std with ddof 1 of one observation). -/
theorem short_returns_risk_no_failure :
    Instrument.calculate_risk_statistics
        ⟨⟨⟨2015, 1, 1⟩, ⟨2020, 4, 23⟩⟩, [1, 2],
          some ⟨[.fin 1], [], .fin 1, .fin 1, .fin 252⟩, none⟩ =
      .ok (⟨.nan, .nan, .nan, .nan, .nan, .nan⟩,
        ⟨⟨⟨2015, 1, 1⟩, ⟨2020, 4, 23⟩⟩, [1, 2],
          some ⟨[.fin 1], [], .fin 1, .fin 1, .fin 252⟩,
          some ⟨.nan, .nan, .nan, .nan, .nan, .nan⟩⟩) := rfl

/-- C6 amended: the return computation raises (a ZeroDivisionError from
the APY expression 252 / len(returns), not an InsufficientDataError,
which does not exist in the code) exactly when the simple-return series
is empty; any price series with fewer than two observations has an
empty return series (but so do longer degenerate ones, such as two zero
prices).  The risk computation never fails on short data: once return
statistics are stored it returns normally, producing NaN statistics when
fewer than two return observations are present. -/
theorem insufficient_data_behaviour (prices : List ℚ) (inst : Instrument)
    (st : ReturnStats) (hst : inst.return_statistics = some st) :
    (calculate_return_statistics_data prices = .error .zeroDivisionError ↔
      simple_returns prices = []) ∧
    (prices.length < 2 → simple_returns prices = []) ∧
    inst.calculate_risk_statistics =
      .ok (riskFromReturns st.returns,
        { inst with risk_statistics := some (riskFromReturns st.returns) }) := by
  refine ⟨⟨?_, ?_⟩, ?_, ?_⟩
  · intro h
    by_contra hne
    have hnz : ¬ (simple_returns prices).length = 0 := by
      intro h0
      exact hne (List.length_eq_zero.mp h0)
    simp only [calculate_return_statistics_data, if_neg hnz] at h
    cases h
  · intro h
    have h0 : (simple_returns prices).length = 0 := by
      rw [h]
      rfl
    simp only [calculate_return_statistics_data, if_pos h0]
  · intro hlt
    cases prices with
    | nil => rfl
    | cons a l =>
      cases l with
      | nil => rfl
      | cons b r =>
        simp only [List.length_cons] at hlt
        omega
  · unfold Instrument.calculate_risk_statistics
    rw [hst]

/-- Witness for C6 at the one-observation price series 5 and an
instrument holding a single stored return observation. -/
theorem insufficient_data_behaviour_witness :
    (⟨⟨⟨2015, 1, 1⟩, ⟨2020, 4, 23⟩⟩, [], some ⟨[.fin 1], [], .nan, .nan, .nan⟩,
        none⟩ : Instrument).return_statistics =
      some ⟨[.fin 1], [], .nan, .nan, .nan⟩ ∧
    ((calculate_return_statistics_data [5] = .error .zeroDivisionError ↔
        simple_returns [5] = []) ∧
      (([5] : List ℚ).length < 2 → simple_returns [5] = []) ∧
      Instrument.calculate_risk_statistics
          ⟨⟨⟨2015, 1, 1⟩, ⟨2020, 4, 23⟩⟩, [],
            some ⟨[.fin 1], [], .nan, .nan, .nan⟩, none⟩ =
        .ok (riskFromReturns [.fin 1],
          ⟨⟨⟨2015, 1, 1⟩, ⟨2020, 4, 23⟩⟩, [],
            some ⟨[.fin 1], [], .nan, .nan, .nan⟩,
            some (riskFromReturns [.fin 1])⟩)) :=
  ⟨rfl, insufficient_data_behaviour [5]
    ⟨⟨⟨2015, 1, 1⟩, ⟨2020, 4, 23⟩⟩, [], some ⟨[.fin 1], [], .nan, .nan, .nan⟩,
      none⟩ ⟨[.fin 1], [], .nan, .nan, .nan⟩ rfl⟩

/-- C7 counterexample: the claim says a constructed Instrument already
holds its statistics.  Instrument.__init__ only stores the range and
the downloaded data and sets both statistics fields to the empty dict,
so a freshly constructed instrument holds no expected_annual_return and
no annual_std. -/
theorem construction_computes_no_statistics :
    (Instrument.init ⟨⟨2015, 1, 1⟩, ⟨2020, 4, 23⟩⟩ [1, 2, 4]).return_statistics =
      none ∧
    (Instrument.init ⟨⟨2015, 1, 1⟩, ⟨2020, 4, 23⟩⟩ [1, 2, 4]).risk_statistics =
      none := ⟨rfl, rfl⟩

/-- C7 amended: construction initializes both statistics fields to the
empty container; the statistics are computed by the separate
calculate_statistics call (return statistics first, then risk
statistics, by mutating the fields), which get_ticker_statistics
performs right after construction — so an instrument returned by a
successful get_ticker_statistics does hold both statistics. -/
theorem statistics_after_get_ticker_statistics
    (fetch : DateRange → List ℚ) (s e : String) (inst : Instrument)
    (h : get_ticker_statistics fetch s e = .ok inst) :
    (∀ dr data, (Instrument.init dr data).return_statistics = none ∧
      (Instrument.init dr data).risk_statistics = none) ∧
    ∃ st, inst.return_statistics = some st ∧
      inst.risk_statistics = some (riskFromReturns st.returns) := by
  refine ⟨fun dr data => ⟨rfl, rfl⟩, ?_⟩
  unfold get_ticker_statistics at h
  cases hg : get_ticker_historical_data fetch s e with
  | error e2 =>
    rw [hg] at h
    cases h
  | ok inst0 =>
    rw [hg] at h
    dsimp only at h
    cases hr : inst0.calculate_return_statistics with
    | error e2 =>
      have hcs : inst0.calculate_statistics = .error e2 := by
        unfold Instrument.calculate_statistics
        rw [hr]
      rw [hcs] at h
      cases h
    | ok pr =>
      obtain ⟨st, inst1⟩ := pr
      have h1 : inst1.return_statistics = some st := by
        unfold Instrument.calculate_return_statistics at hr
        cases hd : calculate_return_statistics_data inst0.data with
        | error e2 =>
          rw [hd] at hr
          cases hr
        | ok st2 =>
          rw [hd] at hr
          injection hr with h2
          injection h2 with ha hb
          subst ha
          subst hb
          rfl
      have hrisk : inst1.calculate_risk_statistics =
          .ok (riskFromReturns st.returns,
            { inst1 with risk_statistics := some (riskFromReturns st.returns) }) := by
        unfold Instrument.calculate_risk_statistics
        rw [h1]
      have hcs : inst0.calculate_statistics =
          .ok ((st, riskFromReturns st.returns),
            { inst1 with risk_statistics := some (riskFromReturns st.returns) }) := by
        unfold Instrument.calculate_statistics
        rw [hr]
        dsimp only
        rw [hrisk]
      rw [hcs] at h
      injection h with h
      subst h
      refine ⟨st, ?_, rfl⟩
      show inst1.return_statistics = some st
      exact h1

/-- Witness for C7 at a concrete fetched series 1, 2, 4 and the date
range 01/01/2015 to 23/04/2020. -/
theorem statistics_after_get_ticker_statistics_witness :
    get_ticker_statistics (fun dr => [1, 2, 4]) "01/01/2015" "23/04/2020" =
      .ok ⟨⟨⟨2015, 1, 1⟩, ⟨2020, 4, 23⟩⟩, [1, 2, 4],
        some ⟨[.fin 1, .fin 1], [.val 1 2, .val 2 4], .fin 1, .fin 2, .fin 252⟩,
        some ⟨.sq 0, .sq 0, .sq 0, .fin 0, .fin 0, .fin 0⟩⟩ ∧
    ((∀ dr data, (Instrument.init dr data).return_statistics = none ∧
        (Instrument.init dr data).risk_statistics = none) ∧
      ∃ st, (⟨⟨⟨2015, 1, 1⟩, ⟨2020, 4, 23⟩⟩, [1, 2, 4],
        some ⟨[.fin 1, .fin 1], [.val 1 2, .val 2 4], .fin 1, .fin 2, .fin 252⟩,
        some ⟨.sq 0, .sq 0, .sq 0, .fin 0, .fin 0, .fin 0⟩⟩ : Instrument).return_statistics =
          some st ∧
        (⟨⟨⟨2015, 1, 1⟩, ⟨2020, 4, 23⟩⟩, [1, 2, 4],
          some ⟨[.fin 1, .fin 1], [.val 1 2, .val 2 4], .fin 1, .fin 2, .fin 252⟩,
          some ⟨.sq 0, .sq 0, .sq 0, .fin 0, .fin 0, .fin 0⟩⟩ : Instrument).risk_statistics =
          some (riskFromReturns st.returns)) := by
  have hret : calculate_return_statistics_data [1, 2, 4] =
      .ok ⟨[.fin 1, .fin 1], [.val 1 2, .val 2 4], .fin 1, .fin 2, .fin 252⟩ := by
    have h1 : simple_returns [(1 : ℚ), 2, 4] = [.fin 1, .fin 1] := by
      norm_num [simple_returns, transitions, simpleReturnF, FVal.isNaN]
    have h2 : log_returns [(1 : ℚ), 2, 4] = [.val 1 2, .val 2 4] := by
      norm_num [log_returns, transitions, logReturnL, LogRet.isNaN]
    have h3 : FVal.mean [.fin 1, .fin 1] = .fin 1 := by
      norm_num [FVal.mean, FVal.sum, FVal.add, FVal.divNat]
    simp only [calculate_return_statistics_data, h1, h2, h3]
    norm_num [FVal.mulNat]
  have hrk : riskFromReturns [.fin 1, .fin 1] =
      ⟨.sq 0, .sq 0, .sq 0, .fin 0, .fin 0, .fin 0⟩ := by
    norm_num [riskFromReturns, pandas_std, FVal.isNaN, FVal.isFinite, finVals,
      sampleVarQ, SqrtVal.scaleSqrt, SqrtVal.square, List.filterMap_cons,
      List.filterMap_nil, List.sum_cons, List.sum_nil, List.map_cons, List.map_nil]
  have hgtd : get_ticker_historical_data (fun dr => [1, 2, 4])
      "01/01/2015" "23/04/2020" =
      .ok (Instrument.init ⟨⟨2015, 1, 1⟩, ⟨2020, 4, 23⟩⟩ [1, 2, 4]) := by rfl
  have hcrs : (Instrument.init ⟨⟨2015, 1, 1⟩, ⟨2020, 4, 23⟩⟩
      [1, 2, 4]).calculate_return_statistics =
      .ok (⟨[.fin 1, .fin 1], [.val 1 2, .val 2 4], .fin 1, .fin 2, .fin 252⟩,
        ⟨⟨⟨2015, 1, 1⟩, ⟨2020, 4, 23⟩⟩, [1, 2, 4],
          some ⟨[.fin 1, .fin 1], [.val 1 2, .val 2 4], .fin 1, .fin 2, .fin 252⟩,
          none⟩) := by
    unfold Instrument.calculate_return_statistics
    rw [show (Instrument.init ⟨⟨2015, 1, 1⟩, ⟨2020, 4, 23⟩⟩ [1, 2, 4]).data =
      [1, 2, 4] from rfl]
    rw [hret]
    dsimp only [Instrument.init]
  have hcrisk : (⟨⟨⟨2015, 1, 1⟩, ⟨2020, 4, 23⟩⟩, [1, 2, 4],
      some ⟨[.fin 1, .fin 1], [.val 1 2, .val 2 4], .fin 1, .fin 2, .fin 252⟩,
      none⟩ : Instrument).calculate_risk_statistics =
      .ok (⟨.sq 0, .sq 0, .sq 0, .fin 0, .fin 0, .fin 0⟩,
        ⟨⟨⟨2015, 1, 1⟩, ⟨2020, 4, 23⟩⟩, [1, 2, 4],
          some ⟨[.fin 1, .fin 1], [.val 1 2, .val 2 4], .fin 1, .fin 2, .fin 252⟩,
          some ⟨.sq 0, .sq 0, .sq 0, .fin 0, .fin 0, .fin 0⟩⟩) := by
    unfold Instrument.calculate_risk_statistics
    dsimp only
    rw [hrk]
  have hcs : (Instrument.init ⟨⟨2015, 1, 1⟩, ⟨2020, 4, 23⟩⟩
      [1, 2, 4]).calculate_statistics =
      .ok ((⟨[.fin 1, .fin 1], [.val 1 2, .val 2 4], .fin 1, .fin 2, .fin 252⟩,
        ⟨.sq 0, .sq 0, .sq 0, .fin 0, .fin 0, .fin 0⟩),
        ⟨⟨⟨2015, 1, 1⟩, ⟨2020, 4, 23⟩⟩, [1, 2, 4],
          some ⟨[.fin 1, .fin 1], [.val 1 2, .val 2 4], .fin 1, .fin 2, .fin 252⟩,
          some ⟨.sq 0, .sq 0, .sq 0, .fin 0, .fin 0, .fin 0⟩⟩) := by
    unfold Instrument.calculate_statistics
    rw [hcrs]
    dsimp only
    rw [hcrisk]
  have hgts : get_ticker_statistics (fun dr => [1, 2, 4])
      "01/01/2015" "23/04/2020" =
      .ok ⟨⟨⟨2015, 1, 1⟩, ⟨2020, 4, 23⟩⟩, [1, 2, 4],
        some ⟨[.fin 1, .fin 1], [.val 1 2, .val 2 4], .fin 1, .fin 2, .fin 252⟩,
        some ⟨.sq 0, .sq 0, .sq 0, .fin 0, .fin 0, .fin 0⟩⟩ := by
    unfold get_ticker_statistics
    rw [hgtd]
    dsimp only
    rw [hcs]
  exact ⟨hgts, statistics_after_get_ticker_statistics (fun dr => [1, 2, 4])
    "01/01/2015" "23/04/2020" _ hgts⟩

/-- C9: get_ticker_historical_data validates both date strings before
any fetch: a string not parseable as dd/mm/yyyy makes it fail with the
ValueError of the date-range taxonomy (codes 1 and 2, the spec's
InvalidDateRangeError for malformed dates), a parseable pair whose start
is not strictly before its end fails with code 3 (inverted range), and
only a parseable strictly increasing pair proceeds to construct the
Instrument from the fetched data.  The error outcomes do not depend on
the fetch collaborator at all. -/
theorem date_validation_guards (fetch : DateRange → List ℚ)
    (s e : String) :
    (parseDMY s = none →
      get_ticker_historical_data fetch s e = .error (.valueError 1)) ∧
    (∀ ds, parseDMY s = some ds → parseDMY e = none →
      get_ticker_historical_data fetch s e = .error (.valueError 2)) ∧
    (∀ ds de, parseDMY s = some ds → parseDMY e = some de →
      Date.lt ds de = false →
      get_ticker_historical_data fetch s e = .error (.valueError 3)) ∧
    (∀ ds de, parseDMY s = some ds → parseDMY e = some de →
      Date.lt ds de = true →
      get_ticker_historical_data fetch s e =
        .ok (Instrument.init ⟨ds, de⟩ (fetch ⟨ds, de⟩))) := by
  refine ⟨?_, ?_, ?_, ?_⟩
  · intro h
    unfold get_ticker_historical_data
    rw [h]
  · intro ds h1 h2
    unfold get_ticker_historical_data
    rw [h1, h2]
  · intro ds de h1 h2 h3
    unfold get_ticker_historical_data
    rw [h1, h2]
    simp [h3]
  · intro ds de h1 h2 h3
    unfold get_ticker_historical_data
    rw [h1, h2]
    simp [h3]

/-- Witness for C9: a valid pair of date strings proceeds to the fetch,
and an ill-formatted start string fails with the first date error. -/
theorem date_validation_guards_witness :
    (parseDMY "01/01/2015" = some ⟨2015, 1, 1⟩ ∧
      parseDMY "23/04/2020" = some ⟨2020, 4, 23⟩ ∧
      Date.lt ⟨2015, 1, 1⟩ ⟨2020, 4, 23⟩ = true) ∧
    get_ticker_historical_data (fun dr => [1, 2, 4]) "01/01/2015" "23/04/2020" =
      .ok (Instrument.init ⟨⟨2015, 1, 1⟩, ⟨2020, 4, 23⟩⟩ [1, 2, 4]) :=
  ⟨⟨rfl, rfl, rfl⟩,
    (date_validation_guards (fun dr => [1, 2, 4]) "01/01/2015" "23/04/2020").2.2.2
      ⟨2015, 1, 1⟩ ⟨2020, 4, 23⟩ rfl rfl rfl⟩

/-- C10: calling calculate_risk_statistics on an instrument whose
return statistics have not been computed always fails (indexing the
initial empty dict with [0] raises KeyError), and calculate_statistics
always runs the return computation first, so that when it reaches the
risk computation the stored return statistics are present and the risk
computation succeeds. -/
theorem risk_requires_return_statistics (inst : Instrument) :
    (inst.return_statistics = none →
      inst.calculate_risk_statistics = .error .keyError) ∧
    (∀ st inst1, inst.calculate_return_statistics = .ok (st, inst1) →
      inst.calculate_statistics = .ok ((st, riskFromReturns st.returns),
        { inst1 with risk_statistics := some (riskFromReturns st.returns) })) := by
  constructor
  · intro h
    unfold Instrument.calculate_risk_statistics
    rw [h]
  · intro st inst1 hr
    have h1 : inst1.return_statistics = some st := by
      unfold Instrument.calculate_return_statistics at hr
      cases hd : calculate_return_statistics_data inst.data with
      | error e2 =>
        rw [hd] at hr
        cases hr
      | ok st2 =>
        rw [hd] at hr
        injection hr with h2
        injection h2 with ha hb
        subst ha
        subst hb
        rfl
    have hrisk : inst1.calculate_risk_statistics =
        .ok (riskFromReturns st.returns,
          { inst1 with risk_statistics := some (riskFromReturns st.returns) }) := by
      unfold Instrument.calculate_risk_statistics
      rw [h1]
    unfold Instrument.calculate_statistics
    rw [hr]
    dsimp only
    rw [hrisk]

/-- Witness for C10: a freshly constructed instrument has no return
statistics, and its risk computation fails with KeyError. -/
theorem risk_requires_return_statistics_witness :
    (Instrument.init ⟨⟨2015, 1, 1⟩, ⟨2020, 4, 23⟩⟩ [1, 2, 4]).calculate_risk_statistics =
      .error .keyError :=
  (risk_requires_return_statistics
    (Instrument.init ⟨⟨2015, 1, 1⟩, ⟨2020, 4, 23⟩⟩ [1, 2, 4])).1 rfl

end Agora
